import Mathlib

/-
Verification of the data-api-client library: a shallow embedding of
`index.js` (query assembly, parameter annotation, result hydration) and
`src/pg-escape.ts` (identifier and literal escaping), with theorems about
the behaviours the specification describes.

Modelling conventions for the JavaScript source:
* JS values are modelled by the inductive `JSVal`.  JS numbers are modelled
  by three constructors: `numInt i` stands for any number passing the
  source's exact-integer check `parseInt(val) === val`; `numFloat id`
  stands for any other number still passing `parseFloat(val) === val`
  (finite non-integers and the infinities), with `id` distinguishing
  distinct such values; `numNaN` is NaN, the one number failing both
  checks.  No arithmetic is performed on numbers anywhere in the source,
  only this classification, so the abstraction is exact for the code here.
* Thrown `Error(msg)` exceptions are modelled with `Except String`;
  built-in TypeErrors raised by the hydration code (indexing into
  `undefined`) are modelled with `Option`, `none` meaning the call threw.
* JS objects are modelled as association lists in insertion order; every
  list that stands for a JS object has pairwise-distinct keys, as JS
  objects do.
-/

set_option maxHeartbeats 1000000

namespace DataApi

/-- JavaScript values as far as this library inspects them. -/
inductive JSVal where
  | str : String → JSVal
  | boolV : Bool → JSVal
  | numInt : Int → JSVal
  | numFloat : Nat → JSVal
  | numNaN : JSVal
  | nullV : JSVal
  | undefined : JSVal
  | buffer : Nat → JSVal
  | func : Nat → JSVal
  | arr : List JSVal → JSVal
  | obj : List (String × JSVal) → JSVal

/-- Result of the JS `typeof` operator on a `JSVal`. -/
def typeofStr : JSVal → String
  | .str _ => "string"
  | .boolV _ => "boolean"
  | .numInt _ => "number"
  | .numFloat _ => "number"
  | .numNaN => "number"
  | .undefined => "undefined"
  | .func _ => "function"
  | .nullV => "object"
  | .buffer _ => "object"
  | .arr _ => "object"
  | .obj _ => "object"

/-- JS truthiness of a value. -/
def truthy : JSVal → Bool
  | .str s => s ≠ ""
  | .boolV b => b
  | .numInt i => i ≠ 0
  | .numFloat _ => true
  | .numNaN => false
  | .nullV => false
  | .undefined => false
  | .buffer _ => true
  | .func _ => true
  | .arr _ => true
  | .obj _ => true

/-- Enumerable own properties of a value, as `Object.keys` sees them:
the entries of an object, the indexed characters of a string, and nothing
for other values the source ever passes here. -/
def jsKeys : JSVal → List (String × JSVal)
  | .obj kvs => kvs
  | .str s => (List.range s.length).zip (s.data.map (fun c => JSVal.str (String.mk [c])))
      |>.map (fun p => (toString p.1, p.2))
  | _ => []

/-- Property access `v[k]`, yielding `undefined` when the key is absent.
(Property access on `null`/`undefined` throws in JS; the source only
reaches such an access on inputs that already aborted earlier, so it is
modelled as `undefined` here.) -/
def jsGet (v : JSVal) (k : String) : JSVal :=
  match (jsKeys v).find? (fun kv => kv.1 == k) with
  | some kv => kv.2
  | none => .undefined

/-! Embedding of `src/pg-escape.ts`. -/

/-- Values `literal` can receive: null, undefined, arrays (escaped
recursively), and scalars.  The library only ever stringifies a scalar, so
`scalar s` stands for any non-null, non-array JS value whose `String(val)`
is `s` (for a JS string, `s` is the string itself). -/
inductive PgVal where
  | nullV : PgVal
  | undefined : PgVal
  | arr : List PgVal → PgVal
  | scalar : String → PgVal

/-- Global single-character replacement, the semantics of
`str.replace(/c/g, r)` for a one-character pattern `c`. -/
def replaceAllChar (s : String) (c : Char) (r : String) : String :=
  String.mk (s.data.flatMap (fun x => if x = c then r.data else [x]))

/-- The fixed reserved-word list `POSTGRES_RESERVED_WORDS` from
`src/pg-escape.ts` (the source stores it in a `Set`; membership is the
only operation used). -/
def POSTGRES_RESERVED_WORDS : List String :=
  ["aes128", "aes256", "all", "allowoverwrite", "analyse", "analyze",
   "and", "any", "array", "as", "asc", "authorization", "backup",
   "between", "binary", "blanksasnull", "both", "bytedict", "case",
   "cast", "check", "collate", "column", "constraint", "create",
   "credentials", "cross", "current_date", "current_time",
   "current_timestamp", "current_user", "current_user_id", "default",
   "deferrable", "deflate", "defrag", "delta", "delta32k", "desc",
   "disable", "distinct", "do", "else", "emptyasnull", "enable",
   "encode", "encrypt", "encryption", "end", "except", "explicit",
   "false", "for", "foreign", "freeze", "from", "full", "globaldict256",
   "globaldict64k", "grant", "group", "gzip", "having", "identity",
   "ignore", "ilike", "in", "initially", "inner", "intersect", "into",
   "is", "isnull", "join", "leading", "left", "like", "limit",
   "localtime", "localtimestamp", "lun", "luns", "lzo", "lzop", "minus",
   "mostly13", "mostly32", "mostly8", "natural", "new", "not", "notnull",
   "null", "nulls", "off", "offline", "offset", "old", "on", "only",
   "open", "or", "order", "outer", "overlaps", "parallel", "partition",
   "percent", "placing", "primary", "raw", "readratio", "recover",
   "references", "rejectlog", "resort", "restore", "right", "select",
   "session_user", "similar", "some", "sysdate", "system", "table",
   "tag", "tdes", "text255", "text32k", "then", "to", "top", "trailing",
   "true", "truncatecolumns", "union", "unique", "user", "using",
   "verbose", "wallet", "when", "where", "with", "without"]

/-- First-character class of the identifier pattern
`/^[a-z_][a-z0-9_$]*$/i`: with the `i` flag, `[a-z]` matches both cases. -/
def isIdentCharStart (c : Char) : Bool :=
  c.isAlpha || c == '_'

/-- Continuation-character class `[a-z0-9_$]` of the same pattern, again
case-insensitive. -/
def isIdentCharRest (c : Char) : Bool :=
  c.isAlphanum || c == '_' || c == '$'

/-- Character-wise lowercase, the semantics of JS `id.toLowerCase()` on
the ASCII identifiers this code handles. -/
def toLowerStr (s : String) : String :=
  String.mk (s.data.map Char.toLower)

/-- The test `/^[a-z_][a-z0-9_$]*$/i.test(id)`. -/
def identRegexTest (s : String) : Bool :=
  match s.data with
  | [] => false
  | c :: cs => isIdentCharStart c && cs.all isIdentCharRest

/-- Function `isValidIdentifier` from `src/pg-escape.ts`: reserved words
(looked up lowercased) are invalid, otherwise the regular-expression test
decides. -/
def isValidIdentifier (id : String) : Bool :=
  if POSTGRES_RESERVED_WORDS.contains (toLowerStr id) then false
  else identRegexTest id

/-- Function `quoteIdentifier`: wrap in double quotes, doubling every
internal double quote. -/
def quoteIdentifier (id : String) : String :=
  "\"" ++ replaceAllChar id '"' "\"\"" ++ "\""

/-- Function `ident`: `none` models the JS inputs `null`/`undefined`
(the source guard is `val == null`, which catches both). -/
def ident (val : Option String) : Except String String :=
  match val with
  | none => .error "identifier required"
  | some v => .ok (if isValidIdentifier v then v else quoteIdentifier v)

mutual

/-- Function `literal` from `src/pg-escape.ts`. -/
def literal : PgVal → String
  | .nullV => "NULL"
  | .undefined => "NULL"
  | .arr l => "(" ++ String.intercalate ", " (literalList l) ++ ")"
  | .scalar v =>
    let hasBackslash := v.data.contains '\\'
    let pfx := if hasBackslash then "E" else ""
    let escaped := replaceAllChar v '\'' "''"
    let escaped2 := if hasBackslash then replaceAllChar escaped '\\' "\\\\" else escaped
    pfx ++ "'" ++ escaped2 ++ "'"

/-- Elementwise escaping `val.map(literal)` inside `literal`. -/
def literalList : List PgVal → List String
  | [] => []
  | x :: xs => literal x :: literalList xs

end

theorem literalList_eq_map (l : List PgVal) : literalList l = l.map literal := by
  induction l with
  | nil => rfl
  | cons x xs ih => simp [literalList, ih]

theorem flatMap_quote_double (s : String) :
    replaceAllChar s '\'' "''" =
      String.mk (s.data.flatMap (fun c => if c = '\'' then [c, c] else [c])) := by
  have hfn : (fun x : Char => if x = '\'' then String.data "''" else [x]) =
      (fun c : Char => if c = '\'' then [c, c] else [c]) := by
    funext x
    by_cases h : x = '\''
    · subst h; rfl
    · simp [h]
  simp [replaceAllChar, hfn]

theorem flatMap_backslash_double (s : String) :
    replaceAllChar s '\\' "\\\\" =
      String.mk (s.data.flatMap (fun c => if c = '\\' then [c, c] else [c])) := by
  have hfn : (fun x : Char => if x = '\\' then String.data "\\\\" else [x]) =
      (fun c : Char => if c = '\\' then [c, c] else [c]) := by
    funext x
    by_cases h : x = '\\'
    · subst h; rfl
    · simp [h]
  simp [replaceAllChar, hfn]

/-- C7: `literal` returns `NULL` for null/undefined; arrays are escaped
elementwise and joined as `(e1, e2, ...)` with `()` for the empty array;
a scalar is stringified, every single quote doubled, and exactly when the
stringified value contains a backslash every backslash is also doubled
and the quoted result is prefixed with `E`; `literal("it's") = 'it''s'`
and `literal("a\b") = E'a\\b'`. -/
theorem claim_C7_literal :
    literal .nullV = "NULL" ∧ literal .undefined = "NULL"
  ∧ (∀ l, literal (.arr l) = "(" ++ String.intercalate ", " (l.map literal) ++ ")")
  ∧ literal (.arr []) = "()"
  ∧ (∀ s, literal (.scalar s) =
      (if s.data.contains '\\' then "E" else "") ++ "'" ++
      (if s.data.contains '\\'
       then String.mk ((s.data.flatMap (fun c => if c = '\'' then [c, c] else [c])).flatMap
              (fun c => if c = '\\' then [c, c] else [c]))
       else String.mk (s.data.flatMap (fun c => if c = '\'' then [c, c] else [c]))) ++ "'")
  ∧ literal (.scalar "it's") = "'it''s'"
  ∧ literal (.scalar "a\\b") = "E'a\\\\b'"
  ∧ literal (.arr [.scalar "a", .nullV]) = "('a', NULL)" := by
  refine ⟨rfl, rfl, ?_, rfl, ?_, rfl, rfl, rfl⟩
  · intro l
    rw [literal, literalList_eq_map]
  · intro s
    by_cases h : s.data.contains '\\' <;>
      simp [literal, h, flatMap_quote_double, flatMap_backslash_double]

/-- C8: `ident` fails with "identifier required" for null/undefined; it is
the identity on strings passing the identifier pattern that are not
reserved words under case-insensitive lookup, and wraps every other string
in double quotes doubling internal double quotes;
`ident("table\"name") = "table""name"` and
`ident('"already"') = """already"""` exactly. -/
theorem claim_C8_ident :
    ident none = .error "identifier required"
  ∧ (∀ s, ident (some s) =
      .ok (if isValidIdentifier s then s
           else "\"" ++ String.mk (s.data.flatMap (fun c => if c = '"' then [c, c] else [c])) ++ "\""))
  ∧ (∀ s, isValidIdentifier s = true ↔
      (identRegexTest s = true ∧ POSTGRES_RESERVED_WORDS.contains (toLowerStr s) = false))
  ∧ ident (some "table\"name") = .ok "\"table\"\"name\""
  ∧ ident (some "\"already\"") = .ok "\"\"\"already\"\"\""
  ∧ ident (some "Table") = .ok "\"Table\"" := by
  have hq : ∀ s, quoteIdentifier s =
      "\"" ++ String.mk (s.data.flatMap (fun c => if c = '"' then [c, c] else [c])) ++ "\"" := by
    intro s
    have hfn : (fun x : Char => if x = '"' then String.data "\"\"" else [x]) =
        (fun c : Char => if c = '"' then [c, c] else [c]) := by
      funext x
      by_cases h : x = '"'
      · subst h; rfl
      · simp [h]
    simp [quoteIdentifier, replaceAllChar, hfn]
  refine ⟨rfl, ?_, ?_, rfl, rfl, rfl⟩
  · intro s
    rw [ident, ← hq]
  · intro s
    unfold isValidIdentifier
    cases hc : POSTGRES_RESERVED_WORDS.contains (toLowerStr s) <;> simp [hc]

/-! Embedding of `index.js`: parameter annotation. -/

/-- Check `parseInt(val) === val` of `getType`: true exactly for the
numbers that are exact integers. -/
def isExactInt : JSVal → Bool
  | .numInt _ => true
  | _ => false

/-- Check `parseFloat(val) === val` of `getType`: true for every number
except NaN (`numInt` values also pass it, but the source tests it only
after the integer check has failed). -/
def isExactFloat : JSVal → Bool
  | .numInt _ => true
  | .numFloat _ => true
  | _ => false

/-- Check `Buffer.isBuffer(val)`. -/
def isBuf : JSVal → Bool
  | .buffer _ => true
  | _ => false

/-- Check `val === null`. -/
def isNullLit : JSVal → Bool
  | .nullV => true
  | _ => false

/-- Function `getType` from `index.js`: the conditional chain choosing the
wire type tag, in source order. -/
def getType (val : JSVal) : Option String :=
  if typeofStr val = "string" then some "stringValue"
  else if typeofStr val = "boolean" then some "booleanValue"
  else if typeofStr val = "number" ∧ isExactInt val then some "longValue"
  else if typeofStr val = "number" ∧ isExactFloat val then some "doubleValue"
  else if isNullLit val then some "isNull"
  else if isBuf val then some "blobValue"
  else none

/-- Annotated output entries produced by `annotateParams`: a recursively
annotated nested sequence, an already-annotated value passed through
unchanged, or a named parameter `{name, value: {tag: v}}` built by
`formatType`. -/
inductive AnnOut where
  | nested : List AnnOut → AnnOut
  | pass : JSVal → AnnOut
  | named : String → String → JSVal → AnnOut

/-- Function `formatType` from `index.js`: build `{name, value: {[type]:
value}}`, throwing the invalid-type error (whose message repeats the
source's doubled-quote typo) when no type matched. -/
def formatType (name : String) (value : JSVal) : Option String → Except String AnnOut
  | some t => .ok (.named name t value)
  | none => .error ("'" ++ name ++ "'' is an invalid type")

/-- The `reduce` inside `formatParams`: one named parameter per
enumerable key, in key order, stopping at the first invalid-type error
(the `reduce` in the source evaluates `formatType` left to right and the
first failing key throws). -/
def formatParamsList : List (String × JSVal) → Except String (List AnnOut)
  | [] => .ok []
  | kv :: rest =>
    match formatType kv.1 kv.2 (getType kv.2) with
    | .error e => .error e
    | .ok x =>
      match formatParamsList rest with
      | .error e => .error e
      | .ok xs => .ok (x :: xs)

/-- Function `formatParams` from `index.js`: one named parameter per
enumerable key of `p`, in key order, with the inferred type tag. -/
def formatParams (p : JSVal) : Except String (List AnnOut) :=
  formatParamsList (jsKeys p)

mutual

/-- Function `annotateParams` from `index.js`: the `reduce` over the
top-level parameter entries. -/
def annotateParams : List JSVal → Except String (List AnnOut)
  | [] => .ok []
  | p :: rest =>
    match annotateOne p with
    | .error e => .error e
    | .ok h =>
      match annotateParams rest with
      | .error e => .error e
      | .ok t => .ok (h ++ t)

/-- Treatment of one entry inside `annotateParams`: arrays recurse; an
object with exactly two keys whose `name` and `value` properties are both
truthy passes through; anything else goes through `formatParams`.
`Object.keys(null)` and `Object.keys(undefined)` throw a TypeError in JS,
modelled as an error value. -/
def annotateOne : JSVal → Except String (List AnnOut)
  | .arr l =>
    match annotateParams l with
    | .error e => .error e
    | .ok r => .ok [.nested r]
  | .nullV => .error "Cannot convert undefined or null to object"
  | .undefined => .error "Cannot convert undefined or null to object"
  | p =>
    if (jsKeys p).length = 2 ∧ truthy (jsGet p "name") ∧ truthy (jsGet p "value")
    then .ok [.pass p]
    else formatParams p

end

/-! Embedding of `index.js`: argument parsing and request assembly. -/

/-- Function `parseSQL` from `index.js`. -/
def parseSQL (args : List JSVal) : Except String String :=
  match args.getD 0 .undefined with
  | .str s => .ok s
  | a0 =>
    if typeofStr a0 = "object" then
      match jsGet a0 "sql" with
      | .str s => .ok s
      | _ => .error "No 'sql' statement provided."
    else .error "No 'sql' statement provided."

/-- Function `parseParams` from `index.js`. -/
def parseParams (args : List JSVal) : Except String (List JSVal) :=
  let a0 := args.getD 0 .undefined
  let a1 := args.getD 1 .undefined
  match jsGet a0 "parameters" with
  | .arr l => .ok l
  | p0 =>
    if typeofStr p0 = "object" then .ok [p0]
    else
      match a1 with
      | .arr l => .ok l
      | _ =>
        if typeofStr a1 = "object" then .ok [a1]
        else if truthy p0 then .error "'parameters' must be an object or array"
        else if truthy a1 then .error "Parameters must be an object or array"
        else .ok []

/-- Client Configuration built by the exported constructor (the `RDS`
transport handle is the external collaborator and carries no data the
query logic reads, so it is not modelled). `database = none` is the
`null` the constructor stores when no database was supplied. -/
structure Config where
  secretArn : String
  resourceArn : String
  database : Option String
  hydrateColumnNames : Bool
deriving DecidableEq, Repr

/-- Function `parseDatabase` from `index.js`: a string on the call wins;
a truthy non-string throws; otherwise a truthy configured database is
used, else the no-database error (`config.database ?` is a truthiness
test, so a configured empty string also fails). -/
def parseDatabase (config : Config) (args : List JSVal) : Except String String :=
  match jsGet (args.getD 0 .undefined) "database" with
  | .str s => .ok s
  | d =>
    if truthy d then .error "'database' must be a string."
    else
      match config.database with
      | some db => if db ≠ "" then .ok db else .error "No 'database' provided."
      | none => .error "No 'database' provided."

/-- Function `parseHydrate` from `index.js`. -/
def parseHydrate (config : Config) (args : List JSVal) : Except String Bool :=
  match jsGet (args.getD 0 .undefined) "hydrateColumnNames" with
  | .boolV b => .ok b
  | h =>
    if truthy h then .error "'hydrateColumnNames' must be a boolean."
    else .ok config.hydrateColumnNames

/-- Values stored in the outbound Request Payload: either a raw JS value
(the Arns, `database`, `sql`, and every field merged from an
options-object call) or the annotated parameter sequence placed under
`parameters`/`parameterSets`. -/
inductive PVal where
  | js : JSVal → PVal
  | ann : List AnnOut → PVal

/-- Update one key of a JS object, in place when present (the semantics
of `Object.assign` for a single source key). -/
def setKeyG {α : Type} : List (String × α) → String → α → List (String × α)
  | [], k, v => [(k, v)]
  | kv :: rest, k, v => if kv.1 = k then (k, v) :: rest else kv :: setKeyG rest k v

/-- `Object.assign(base, ext)` for object models. -/
def objAssign {α : Type} (base ext : List (String × α)) : List (String × α) :=
  ext.foldl (fun acc kv => setKeyG acc kv.1 kv.2) base

/-- Key lookup on an object model. -/
def lookupG {α : Type} (o : List (String × α)) (k : String) : Option α :=
  (o.find? (fun kv => kv.1 == k)).map (fun kv => kv.2)

/-- Function `omit` from `index.js` (named `omitKeys` here because `omit`
is a Lean keyword): drop the listed keys, keeping the rest in order. -/
def omitKeys (kvs : List (String × JSVal)) (values : List String) : List (String × JSVal) :=
  kvs.filter (fun kv => !values.contains kv.1)

/-- Function `prepareParams` from `index.js`: the Arns from configuration,
then every field of an options-object first argument except
`hydrateColumnNames`. -/
def prepareParams (config : Config) (args : List JSVal) : List (String × PVal) :=
  objAssign
    [("secretArn", .js (.str config.secretArn)), ("resourceArn", .js (.str config.resourceArn))]
    (if typeofStr (args.getD 0 .undefined) = "object" then
      (omitKeys (jsKeys (args.getD 0 .undefined)) ["hydrateColumnNames"]).map
        (fun kv => (kv.1, PVal.js kv.2))
     else [])

/-- The two remote operations a query can dispatch to. -/
inductive Op where
  | executeStatement : Op
  | batchExecuteStatement : Op
deriving DecidableEq, Repr, Inhabited

/-- Everything the `query` function decides before the remote call: the
batch flag, the dispatched operation, the assembled payload, and the two
flags later passed to `formatResults`. -/
structure QueryPlan where
  isBatch : Bool
  operation : Op
  payload : List (String × PVal)
  hydrate : Bool
  includeMeta : Bool
deriving Inhabited

/-- The request-assembly half of the `query` function from `index.js`,
up to the remote call: parse the arguments in source evaluation order,
detect a batch, assemble the payload with `Object.assign`, and choose the
operation.  The remote call itself and the following `formatResults` are
modelled separately (`formatResults` below). -/
def buildQueryPlan (config : Config) (args : List JSVal) : Except String QueryPlan :=
  match parseSQL args with
  | .error e => .error e
  | .ok sql =>
    match parseHydrate config args with
    | .error e => .error e
    | .ok hydrateColumnNames =>
      match parseParams args with
      | .error e => .error e
      | .ok rawParams =>
        match annotateParams rawParams with
        | .error e => .error e
        | .ok parameters =>
          match parseDatabase config args with
          | .error e => .error e
          | .ok database =>
            let isBatch :=
              decide (parameters.length > 0) &&
                (match parameters.head? with
                 | some (.nested _) => true
                 | _ => false)
            .ok {
              isBatch := isBatch
              operation := if isBatch then .batchExecuteStatement else .executeStatement
              payload :=
                objAssign
                  (objAssign
                    (objAssign (prepareParams config args)
                      [("database", .js (.str database)), ("sql", .js (.str sql))])
                    (if parameters.length > 0 then
                      [((if isBatch then "parameterSets" else "parameters"), PVal.ann parameters)]
                     else []))
                  (if hydrateColumnNames && !isBatch then
                    [("includeResultMetadata", .js (.boolV true))]
                   else [])
              hydrate := hydrateColumnNames
              includeMeta :=
                match jsGet (args.getD 0 .undefined) "includeResultMetadata" with
                | .boolV true => true
                | _ => false }

/-- Check `val === undefined` (strict comparison against `undefined`). -/
def isUndefinedVal : JSVal → Bool
  | .undefined => true
  | _ => false

/-- The exported constructor from `index.js` (`module.exports`): validate
`options`, `secretArn`, `resourceArn` and `database` in source order and
build the Client Configuration.  Note the source computes
`hydrateColumnNames` as `typeof params.hydrateColumnNames === 'boolean' ?
false : true`, modelled verbatim. -/
def buildConfig (params : JSVal) : Except String Config :=
  match
    ((if typeofStr (jsGet params "options") = "object" then .ok (jsGet params "options")
      else if !isUndefinedVal (jsGet params "options") then .error "'options' must be an object"
      else .ok (.obj [])) : Except String JSVal) with
  | .error e => (.error e : Except String Config)
  | .ok _ =>
    match jsGet params "secretArn" with
    | .str secretArn =>
      match jsGet params "resourceArn" with
      | .str resourceArn =>
        match jsGet params "database" with
        | .str database =>
          .ok { secretArn, resourceArn, database := some database,
                hydrateColumnNames :=
                  if typeofStr (jsGet params "hydrateColumnNames") = "boolean"
                  then false else true }
        | d =>
          if !isUndefinedVal d then .error "'database' must be a string"
          else
            .ok { secretArn, resourceArn, database := none,
                  hydrateColumnNames :=
                    if typeofStr (jsGet params "hydrateColumnNames") = "boolean"
                    then false else true }
      | _ => .error "'resourceArn' string value required"
    | _ => .error "'secretArn' string value required"

/-! Embedding of `index.js`: result hydration.  The hydration code can
throw built-in TypeErrors (indexing into `undefined`); those exits are
modelled with `Option`, `none` meaning the call threw. -/

/-- One entry of `columnMetadata`, as far as hydration reads it: its
`label`. -/
structure Col where
  label : String
deriving DecidableEq, Repr

/-- One entry of the per-column Hydration Field Map `fmap`: the column
label seeded from metadata, and the lazily discovered type tag (called
`field` in the source). -/
structure FMapEntry where
  label : Option String
  fld : Option String
deriving DecidableEq, Repr

/-- One result field: a JS object keyed by type tags, e.g.
`{stringValue: "x"}` or `{isNull: true}`. -/
abbrev RField := List (String × JSVal)

/-- One result row: an array of fields. -/
abbrev RRecord := List RField

/-- Field lookup `field[k]`, `undefined` when absent. -/
def fieldGet (f : RField) (k : String) : JSVal :=
  match f.find? (fun kv => kv.1 == k) with
  | some kv => kv.2
  | none => .undefined

/-- Check `field.isNull === true`. -/
def fieldIsNull (f : RField) : Bool :=
  match fieldGet f "isNull" with
  | .boolV true => true
  | _ => false

/-- Truthiness of `fmap[i].field` (a missing tag is `undefined`; a stored
tag is a string, falsy only when empty). -/
def fldTruthy : Option String → Bool
  | none => false
  | some s => s ≠ ""

/-- A JS computed object key: `undefined` renders as the string
"undefined". -/
def hydKey : Option String → String
  | some l => l
  | none => "undefined"

/-- The type-discovery loop of `formatRecords`: scan the field's keys and
remember the last non-`isNull` key holding a non-null value. -/
def discover (f : RField) (cur : Option String) : Option String :=
  f.foldl
    (fun acc kv =>
      if kv.1 ≠ "isNull" ∧ ¬isNullLit kv.2 then some kv.1 else acc)
    cur

/-- An output row: an object keyed by labels when hydrating, else an
array. -/
inductive OutRec where
  | obj : List (String × JSVal) → OutRec
  | arr : List JSVal → OutRec

/-- Emit one value into the accumulator row: `Object.assign(acc,
{[key]: v})` when hydrating, `acc.concat(v)` otherwise. -/
def emitVal (hydr : Bool) (acc : OutRec) (key : String) (v : JSVal) : OutRec :=
  if hydr then
    match acc with
    | .obj o => .obj (setKeyG o key v)
    | .arr a => .arr a
  else
    match acc with
    | .arr a => .arr (a ++ [v])
    | .obj o => .obj o

/-- Build the initial `fmap` from the first record:
`recs[0].map((x,i) => Object.assign({}, columns ? {label:
columns[i].label} : {}))`.  Reading `columns[i].label` past the end of
the metadata throws, giving `none`. -/
def buildFmap : RRecord → Option (List Col) → Option (List FMapEntry)
  | first, none => some (first.map (fun _ => ⟨none, none⟩))
  | [], some _ => some []
  | _ :: _, some [] => none
  | _ :: fs, some (c :: cs) =>
    (buildFmap fs (some cs)).map (fun rest => ⟨some c.label, none⟩ :: rest)

/-- The per-field body of the `reduce` inside `formatRecords`, returning
the updated accumulator and (possibly mutated) `fmap`.  A `none` is a
thrown TypeError: every branch that reads or writes `fmap[i]` when it is
`undefined` throws. -/
def procField (hydr : Bool) (fmap : List FMapEntry) (i : Nat) (acc : OutRec) (f : RField) :
    Option (OutRec × List FMapEntry) :=
  if fieldIsNull f then
    if hydr then
      match fmap[i]? with
      | some e => some (emitVal hydr acc (hydKey e.label) .nullV, fmap)
      | none => none
    else some (emitVal hydr acc "" .nullV, fmap)
  else
    match fmap[i]? with
    | some e =>
      if fldTruthy e.fld then
        some (emitVal hydr acc (hydKey e.label) (fieldGet f (hydKey e.fld)), fmap)
      else
        let fld2 := discover f e.fld
        some (emitVal hydr acc (hydKey e.label) (fieldGet f (hydKey fld2)),
              fmap.set i ⟨e.label, fld2⟩)
    | none => none

/-- The `reduce` over one record's fields, threading the field index and
`fmap`. -/
def procFields (hydr : Bool) : List RField → Nat → OutRec → List FMapEntry →
    Option (OutRec × List FMapEntry)
  | [], _, acc, fmap => some (acc, fmap)
  | f :: fs, i, acc, fmap =>
    match procField hydr fmap i acc f with
    | none => none
    | some (acc2, fmap2) => procFields hydr fs (i + 1) acc2 fmap2

/-- The `map` over all records; `fmap` persists across records. -/
def procRecords (hydr : Bool) : List RRecord → List FMapEntry → Option (List OutRec)
  | [], _ => some []
  | r :: rs, fmap =>
    match procFields hydr r 0 (if hydr then .obj [] else .arr []) fmap with
    | none => none
    | some (out, fmap2) =>
      match procRecords hydr rs fmap2 with
      | none => none
      | some rest => some (out :: rest)

/-- Function `formatRecords` from `index.js`.  `columns = none` models a
falsy `columns` argument (`false` or an absent `columnMetadata`).  On an
empty record list, `recs[0]` is `undefined` and `recs[0].map` throws,
hence `none`. -/
def formatRecords (recs : List RRecord) (columns : Option (List Col)) : Option (List OutRec) :=
  match recs with
  | [] => none
  | first :: _ =>
    match buildFmap first columns with
    | none => none
    | some fmap => procRecords columns.isSome recs fmap

/-- The raw remote response shape `{columnMetadata,
numberOfRecordsUpdated, records}` destructured by `formatResults`.
`numberOfRecordsUpdated` is opaque to the code, so it is kept as a raw
JS value. -/
structure RawResponse where
  columnMetadata : Option (List Col)
  numberOfRecordsUpdated : JSVal
  records : List RRecord

/-- The value `formatResults` returns: `columnMetadata` is present (outer
`some`) exactly when `includeMeta` was set, carrying the raw metadata
value. -/
structure FormattedResult where
  columnMetadata : Option (Option (List Col))
  numberOfRecordsUpdated : JSVal
  records : List OutRec

/-- Function `formatResults` from `index.js`. -/
def formatResults (resp : RawResponse) (hydrate includeMeta : Bool) : Option FormattedResult :=
  match formatRecords resp.records (if hydrate then resp.columnMetadata else none) with
  | none => none
  | some recs =>
    some { columnMetadata := if includeMeta then some resp.columnMetadata else none
           numberOfRecordsUpdated := resp.numberOfRecordsUpdated
           records := recs }

/-! Theorems about the claims on `index.js`. -/

/-- C1: the constructor evaluated with `hydrateColumnNames: true`
supplied as a boolean stores `false` — the source computes the field as
`typeof params.hydrateColumnNames === 'boolean' ? false : true`, so every
supplied boolean is collapsed to `false`, contradicting the claim that
the stored flag equals the supplied boolean.  Supplying `false` and
omitting the field behave as the claim says. -/
theorem claim_C1_hydrate_config :
    buildConfig (.obj [("secretArn", .str "s"), ("resourceArn", .str "r"),
      ("hydrateColumnNames", .boolV true)]) = .ok ⟨"s", "r", none, false⟩
  ∧ buildConfig (.obj [("secretArn", .str "s"), ("resourceArn", .str "r"),
      ("hydrateColumnNames", .boolV false)]) = .ok ⟨"s", "r", none, false⟩
  ∧ buildConfig (.obj [("secretArn", .str "s"), ("resourceArn", .str "r")]) =
      .ok ⟨"s", "r", none, true⟩ :=
  ⟨rfl, rfl, rfl⟩

/-- Configuration fixture used by the concrete query-assembly
evaluations. -/
def cfgEx : Config := ⟨"sec", "res", some "db", true⟩

/-- A batch call made through an options object that carries the
`parameters` field. -/
def argsBatchOpts : List JSVal :=
  [.obj [("sql", .str "SELECT 1"),
         ("parameters", .arr [.arr [.obj [("id", .numInt 1)]]])]]

/-- C2: evaluation at the failing input: for a batch call made with an
options object carrying `parameters`, the assembled payload contains both
the raw `parameters` field (merged from the options object, which `omit`
strips only of `hydrateColumnNames`) and the assembled `parameterSets`
field — the claim's mutual exclusivity fails. -/
theorem claim_C2_payload_both_keys :
    (buildQueryPlan cfgEx argsBatchOpts).map
      (fun p => (p.isBatch, lookupG p.payload "parameters", lookupG p.payload "parameterSets"))
    = .ok (true,
        some (.js (.arr [.arr [.obj [("id", .numInt 1)]]])),
        some (.ann [.nested [.named "id" "longValue" (.numInt 1)]])) :=
  rfl

/-- Response-record fixture of claim C3: records
`[[{stringValue:"x"}],[{isNull:true}]]`. -/
def recsEx : List RRecord :=
  [[[("stringValue", JSVal.str "x")]], [[("isNull", JSVal.boolV true)]]]

/-- C3: hydrating `[[{stringValue:"x"}],[{isNull:true}]]` against columns
`[{label:"col"}]` yields `[{col:"x"},{col:null}]`; without hydration it
yields `[["x"],[null]]`; in both modes `numberOfRecordsUpdated` is
carried through unchanged (it is universally quantified here), for either
setting of the metadata pass-through flag. -/
theorem claim_C3_hydration_round_trip (n : JSVal) (meta : Bool) :
    formatResults ⟨some [⟨"col"⟩], n, recsEx⟩ true meta
      = some ⟨(if meta then some (some [⟨"col"⟩]) else none), n,
              [.obj [("col", .str "x")], .obj [("col", .nullV)]]⟩
  ∧ formatResults ⟨some [⟨"col"⟩], n, recsEx⟩ false meta
      = some ⟨(if meta then some (some [⟨"col"⟩]) else none), n,
              [.arr [.str "x"], .arr [.nullV]]⟩ := by
  cases meta <;> exact ⟨rfl, rfl⟩

/-- Classification of parameter values by the claim's precedence list:
string, then boolean, then exact integer, then exact floating value, then
null, then binary blob, and no tag for anything else (here: NaN,
undefined, functions, arrays, plain objects). -/
def getTypeSpec : JSVal → Option String
  | .str _ => some "stringValue"
  | .boolV _ => some "booleanValue"
  | .numInt _ => some "longValue"
  | .numFloat _ => some "doubleValue"
  | .nullV => some "isNull"
  | .buffer _ => some "blobValue"
  | .numNaN => none
  | .undefined => none
  | .func _ => none
  | .arr _ => none
  | .obj _ => none

/-- C4: the source's `getType` conditional chain picks exactly the tag
the claim's precedence assigns to every value; when no tag matches,
`formatType` (and hence annotation through `formatParams`) fails with an
invalid-type error naming the offending key; NaN and functions are
tagless. -/
theorem claim_C4_type_precedence :
    (∀ v, getType v = getTypeSpec v)
  ∧ (∀ k v, getType v = none →
      formatType k v (getType v) = .error ("'" ++ k ++ "'' is an invalid type"))
  ∧ formatParams (.obj [("fn", .func 0)]) = .error "'fn'' is an invalid type"
  ∧ getType .numNaN = none := by
  refine ⟨?_, ?_, rfl, rfl⟩
  · intro v; cases v <;> rfl
  · intro k v h; rw [h]; rfl

/-- Witness for C4: the invalid-type failure at the concrete key "fn"
holding a function value. -/
theorem claim_C4_witness :
    formatType "fn" (.func 0) (getType (.func 0)) = .error "'fn'' is an invalid type" :=
  claim_C4_type_precedence.2.1 "fn" (.func 0) rfl

/-- C9 counterexample: a database value is supplied on the call (the
boolean `false`, not a string), yet the call does not fail with the type
error — `parseDatabase` only throws for truthy non-strings, and here it
silently falls back to the configuration default "db". -/
theorem claim_C9_counterexample :
    parseDatabase ⟨"s", "r", some "db", true⟩
      [.obj [("sql", .str "q"), ("database", .boolV false)]] = .ok "db"
  ∧ parseDatabase ⟨"s", "r", some "db", true⟩
      [.obj [("sql", .str "q"), ("database", .boolV false)]]
      ≠ .error "'database' must be a string." :=
  ⟨rfl, fun h => Except.noConfusion h⟩

/-- C9 (amended): a string database on the call wins; a truthy non-string
database on the call fails with the type error; a falsy non-string
database is treated as absent, falling back to a truthy configured
default; when that too is absent (or the falsy empty string), the call
fails with the no-database error. -/
theorem claim_C9_database_resolution (config : Config) (args : List JSVal) :
    (∀ s, jsGet (args.getD 0 .undefined) "database" = .str s →
      parseDatabase config args = .ok s)
  ∧ (typeofStr (jsGet (args.getD 0 .undefined) "database") ≠ "string" →
     truthy (jsGet (args.getD 0 .undefined) "database") = true →
     parseDatabase config args = .error "'database' must be a string.")
  ∧ (∀ db, typeofStr (jsGet (args.getD 0 .undefined) "database") ≠ "string" →
     truthy (jsGet (args.getD 0 .undefined) "database") = false →
     config.database = some db → db ≠ "" →
     parseDatabase config args = .ok db)
  ∧ (typeofStr (jsGet (args.getD 0 .undefined) "database") ≠ "string" →
     truthy (jsGet (args.getD 0 .undefined) "database") = false →
     (config.database = none ∨ config.database = some "") →
     parseDatabase config args = .error "No 'database' provided.") := by
  refine ⟨?_, ?_, ?_, ?_⟩
  · intro s h
    unfold parseDatabase
    rw [h]
  · intro hty htr
    unfold parseDatabase
    cases hd : jsGet (args.getD 0 .undefined) "database" <;> rw [hd] at hty htr <;>
      simp_all [typeofStr, truthy]
  · intro db hty htr hcfg hne
    unfold parseDatabase
    cases hd : jsGet (args.getD 0 .undefined) "database" <;> rw [hd] at hty htr <;>
      simp_all [typeofStr, truthy]
  · intro hty htr hcfg
    unfold parseDatabase
    rcases hcfg with h | h <;>
      cases hd : jsGet (args.getD 0 .undefined) "database" <;> rw [hd] at hty htr <;>
        simp_all [typeofStr, truthy]

/-- Witness for C9 (amended): the three outcomes at concrete inputs — a
truthy non-string fails with the type error, a falsy non-string falls
back to the configured database, and with no configured database the
no-database error is raised. -/
theorem claim_C9_witness :
    parseDatabase ⟨"s", "r", some "db", true⟩
      [.obj [("sql", .str "q"), ("database", .numInt 5)]]
      = .error "'database' must be a string."
  ∧ parseDatabase ⟨"s", "r", some "db", true⟩
      [.obj [("sql", .str "q"), ("database", .boolV false)]] = .ok "db"
  ∧ parseDatabase ⟨"s", "r", none, true⟩ [.obj [("sql", .str "q")]]
      = .error "No 'database' provided." :=
  ⟨(claim_C9_database_resolution ⟨"s", "r", some "db", true⟩
      [.obj [("sql", .str "q"), ("database", .numInt 5)]]).2.1
        (by intro h; exact absurd h (by decide)) rfl,
   (claim_C9_database_resolution ⟨"s", "r", some "db", true⟩
      [.obj [("sql", .str "q"), ("database", .boolV false)]]).2.2.1
        "db" (by intro h; exact absurd h (by decide)) rfl rfl (by decide),
   (claim_C9_database_resolution ⟨"s", "r", none, true⟩
      [.obj [("sql", .str "q")]]).2.2.2
        (by intro h; exact absurd h (by decide)) rfl (Or.inl rfl)⟩

/-- C10: on a response whose records list is empty, `formatRecords`
builds its field map from `recs[0]`, which is `undefined`, and throws —
in both hydration modes and for every metadata setting — instead of
returning an output with an empty records list. -/
theorem claim_C10_empty_records_throw :
    (∀ cols, formatRecords [] cols = none)
  ∧ (∀ cm n hyd meta, formatResults ⟨cm, n, ([] : List RRecord)⟩ hyd meta = none) :=
  ⟨fun _ => rfl, fun _ _ _ _ => rfl⟩

/-! Lemmas about object updates, used for the payload reasoning. -/

theorem lookupG_setKeyG_self {α : Type} (o : List (String × α)) (k : String) (v : α) :
    lookupG (setKeyG o k v) k = some v := by
  induction o with
  | nil => simp [setKeyG, lookupG, List.find?]
  | cons kv rest ih =>
    by_cases h : kv.1 = k
    · simp [setKeyG, h, lookupG, List.find?]
    · simp only [setKeyG, if_neg h]
      simp only [lookupG, List.find?] at ih ⊢
      have hb : (kv.1 == k) = false := by simpa using h
      rw [hb]
      exact ih

theorem lookupG_setKeyG_ne {α : Type} (o : List (String × α)) (k k' : String) (v : α)
    (h : k' ≠ k) : lookupG (setKeyG o k v) k' = lookupG o k' := by
  induction o with
  | nil =>
    simp only [setKeyG, lookupG, List.find?]
    have hb : (k == k') = false := by simpa using fun hh => h hh.symm
    rw [hb]
  | cons kv rest ih =>
    by_cases hk : kv.1 = k
    · subst hk
      simp only [setKeyG, if_pos rfl]
      simp only [lookupG, List.find?]
      have hb : (kv.1 == k') = false := by simpa using fun hh => h hh.symm
      rw [hb]
    · simp only [setKeyG, if_neg hk]
      simp only [lookupG, List.find?] at ih ⊢
      cases hb : (kv.1 == k') with
      | true => rfl
      | false => exact ih

/-- C5: for every successful query call, the call is a batch exactly when
the annotated parameter sequence starts with a nested sequence (so in
particular is non-empty); the dispatched operation is
`batchExecuteStatement` for a batch and `executeStatement` otherwise; and
the payload's `includeResultMetadata` is forced to `true` exactly when
hydration is on and the call is not a batch — otherwise the payload holds
whatever the options merge put there, untouched. -/
theorem claim_C5_batch_dispatch_meta (config : Config) (args : List JSVal)
    (rawPs : List JSVal) (anns : List AnnOut) (plan : QueryPlan)
    (hps : parseParams args = .ok rawPs)
    (hann : annotateParams rawPs = .ok anns)
    (hq : buildQueryPlan config args = .ok plan) :
    (plan.isBatch = true ↔ ∃ l rest, anns = AnnOut.nested l :: rest)
  ∧ plan.operation = (if plan.isBatch then Op.batchExecuteStatement else Op.executeStatement)
  ∧ (plan.hydrate = true → plan.isBatch = false →
      lookupG plan.payload "includeResultMetadata" = some (.js (.boolV true)))
  ∧ (plan.hydrate = false ∨ plan.isBatch = true →
      lookupG plan.payload "includeResultMetadata"
        = lookupG (prepareParams config args) "includeResultMetadata") := by
  unfold buildQueryPlan at hq
  cases hsql : parseSQL args with
  | error e => rw [hsql] at hq; exact Except.noConfusion hq
  | ok sql =>
  rw [hsql] at hq
  simp only [] at hq
  cases hhyd : parseHydrate config args with
  | error e => rw [hhyd] at hq; exact Except.noConfusion hq
  | ok hyd =>
  rw [hhyd] at hq
  simp only [] at hq
  rw [hps] at hq
  simp only [] at hq
  rw [hann] at hq
  simp only [] at hq
  cases hdb : parseDatabase config args with
  | error e => rw [hdb] at hq; exact Except.noConfusion hq
  | ok db =>
  rw [hdb] at hq
  simp only [] at hq
  injection hq with hplan
  subst hplan
  refine ⟨?_, ?_, ?_, ?_⟩
  · cases anns with
    | nil => simp
    | cons a rest =>
      cases a with
      | nested l => simp
      | pass p => simp
      | named n t v => simp
  · rfl
  · intro hh hb
    simp only at hh hb ⊢
    rw [hb, hh]
    simp only [Bool.not_false, Bool.and_true, if_pos]
    simp only [objAssign, List.foldl]
    exact lookupG_setKeyG_self _ _ _
  · intro h
    have hne1 : ("includeResultMetadata" : String) ≠ "database" := by decide
    have hne2 : ("includeResultMetadata" : String) ≠ "sql" := by decide
    have hne3 : ∀ b : Bool,
        ("includeResultMetadata" : String) ≠ (if b then "parameterSets" else "parameters") := by
      intro b; cases b <;> decide
    have hcond : (hyd && !(decide (anns.length > 0) &&
        (match anns.head? with
         | some (AnnOut.nested _) => true
         | _ => false))) = false := by
      rcases h with h | h
      · simp only at h
        rw [h]
        simp
      · simp only at h
        rw [h]
        simp
    simp only at h ⊢
    rw [hcond]
    simp only [Bool.false_eq_true, if_false, objAssign, List.foldl_cons, List.foldl_nil]
    by_cases hlen : anns.length > 0
    · simp only [hlen, if_true, List.foldl_cons, List.foldl_nil]
      rw [lookupG_setKeyG_ne _ _ _ _ (hne3 _)]
      rw [lookupG_setKeyG_ne _ _ _ _ hne2]
      rw [lookupG_setKeyG_ne _ _ _ _ hne1]
    · simp only [hlen, if_false, List.foldl_cons, List.foldl_nil]
      rw [lookupG_setKeyG_ne _ _ _ _ hne2]
      rw [lookupG_setKeyG_ne _ _ _ _ hne1]

/-- Fixture: a hydrated non-batch call whose options object explicitly
asks for `includeResultMetadata: false`. -/
def argsMetaW : List JSVal :=
  [.obj [("sql", .str "q"), ("includeResultMetadata", .boolV false),
         ("parameters", .obj [("a", .numInt 1)])]]

/-- The query plan the `argsMetaW` fixture produces. -/
def planW : QueryPlan :=
  match buildQueryPlan cfgEx argsMetaW with
  | .ok p => p
  | .error _ => default

/-- Witness for C5: on the concrete hydrated non-batch call that asked
for `includeResultMetadata: false`, the payload is forced to `true` and
the call dispatches to `executeStatement`. -/
theorem claim_C5_witness :
    lookupG planW.payload "includeResultMetadata" = some (.js (.boolV true))
  ∧ planW.operation = Op.executeStatement := by
  have h := claim_C5_batch_dispatch_meta cfgEx argsMetaW
    [.obj [("a", .numInt 1)]] [.named "a" "longValue" (.numInt 1)] planW
    rfl rfl rfl
  exact ⟨h.2.2.1 rfl rfl, by rw [h.2.1]; rfl⟩

/-! Lemmas for the annotation claims. -/

theorem mem_keys_of_truthy (kvs : List (String × JSVal)) (k : String)
    (h : truthy (jsGet (.obj kvs) k) = true) : k ∈ kvs.map Prod.fst := by
  unfold jsGet jsKeys at h
  cases hf : kvs.find? (fun kv => kv.1 == k) with
  | none => rw [hf] at h; simp [truthy] at h
  | some kv =>
    rw [hf] at h
    have hmem := List.mem_of_find?_eq_some hf
    have hkey := List.find?_some hf
    simp only [beq_iff_eq] at hkey
    exact hkey ▸ List.mem_map_of_mem Prod.fst hmem

theorem perm_pair_of (l : List String) (a b : String) (hlen : l.length = 2)
    (hnd : l.Nodup) (ha : a ∈ l) (hb : b ∈ l) (hab : a ≠ b) : l.Perm [a, b] := by
  match l, hlen with
  | [x, y], _ =>
    simp only [List.mem_cons, List.mem_singleton, List.not_mem_nil, or_false] at ha hb
    have hxy : x ≠ y := by simp [List.nodup_cons] at hnd; exact hnd
    rcases ha with ha | ha <;> rcases hb with hb | hb
    · exact absurd (ha.trans hb.symm) hab
    · rw [← ha, ← hb]
    · rw [← ha, ← hb]; exact List.Perm.swap a b []
    · exact absurd (ha.trans hb.symm) hab

theorem annotate_cond_iff (kvs : List (String × JSVal))
    (hnd : (kvs.map Prod.fst).Nodup) :
    ((jsKeys (JSVal.obj kvs)).length = 2
      ∧ truthy (jsGet (.obj kvs) "name") = true
      ∧ truthy (jsGet (.obj kvs) "value") = true)
  ↔ ((kvs.map Prod.fst).Perm ["name", "value"]
      ∧ truthy (jsGet (.obj kvs) "name") = true
      ∧ truthy (jsGet (.obj kvs) "value") = true) := by
  constructor
  · rintro ⟨hlen, hn, hv⟩
    refine ⟨?_, hn, hv⟩
    exact perm_pair_of _ _ _ (by simpa using hlen) hnd
      (mem_keys_of_truthy _ _ hn) (mem_keys_of_truthy _ _ hv) (by decide)
  · rintro ⟨hp, hn, hv⟩
    refine ⟨?_, hn, hv⟩
    have := hp.length_eq
    simpa using this

theorem formatParamsList_shape (kvs : List (String × JSVal)) (out : List AnnOut)
    (h : formatParamsList kvs = .ok out) : ∀ x ∈ out, ∃ n t v, x = AnnOut.named n t v := by
  induction kvs generalizing out with
  | nil =>
    simp only [formatParamsList] at h
    injection h with h
    subst h
    intro x hx
    simp at hx
  | cons kv rest ih =>
    simp only [formatParamsList] at h
    cases hg : getType kv.2 with
    | none => rw [hg] at h; exact Except.noConfusion h
    | some t =>
      rw [hg] at h
      simp only [formatType] at h
      cases hrest : formatParamsList rest with
      | error e => rw [hrest] at h; exact Except.noConfusion h
      | ok xs =>
        rw [hrest] at h
        injection h with h
        subst h
        intro x hx
        rcases List.mem_cons.mp hx with hx | hx
        · exact ⟨kv.1, t, kv.2, hx⟩
        · exact ih xs hrest x hx

theorem formatParamsList_all_some (kvs : List (String × JSVal))
    (h : ∀ kv ∈ kvs, (getType kv.2).isSome = true) :
    formatParamsList kvs =
      .ok (kvs.map (fun kv => AnnOut.named kv.1 ((getType kv.2).getD "") kv.2)) := by
  induction kvs with
  | nil => rfl
  | cons kv rest ih =>
    cases hg : getType kv.2 with
    | none =>
      exfalso
      have := h kv (List.mem_cons_self kv rest)
      rw [hg] at this
      simp at this
    | some t =>
      simp only [formatParamsList, hg, formatType, List.map_cons]
      rw [ih (fun kv hkv => h kv (List.mem_cons_of_mem _ hkv))]
      simp [hg]

theorem annotateOne_obj (kvs : List (String × JSVal)) :
    annotateOne (.obj kvs) =
      if ((jsKeys (JSVal.obj kvs)).length = 2
          ∧ truthy (jsGet (.obj kvs) "name") = true
          ∧ truthy (jsGet (.obj kvs) "value") = true)
      then .ok [.pass (.obj kvs)]
      else formatParams (.obj kvs) := rfl

theorem annotateOne_arr (l : List JSVal) :
    annotateOne (.arr l) =
      match annotateParams l with
      | .error e => .error e
      | .ok r => .ok [.nested r] := rfl

/-- C6: for every plain-object entry with pairwise-distinct keys, the
annotation passes it through unchanged exactly when its keys are
precisely `name` and `value` and both values are truthy; every other
plain object entry (whose values all carry a type tag) is expanded into
one named parameter per key with the inferred tag; and an entry that is
itself a sequence is annotated recursively into one nested sequence. -/
theorem claim_C6_annotate_entries (kvs : List (String × JSVal))
    (hnd : (kvs.map Prod.fst).Nodup) :
    (annotateOne (.obj kvs) = .ok [.pass (.obj kvs)] ↔
      ((kvs.map Prod.fst).Perm ["name", "value"]
        ∧ truthy (jsGet (.obj kvs) "name") = true
        ∧ truthy (jsGet (.obj kvs) "value") = true))
  ∧ ((¬ ((kvs.map Prod.fst).Perm ["name", "value"]
        ∧ truthy (jsGet (.obj kvs) "name") = true
        ∧ truthy (jsGet (.obj kvs) "value") = true)) →
      (∀ kv ∈ kvs, (getType kv.2).isSome = true) →
      annotateOne (.obj kvs) =
        .ok (kvs.map (fun kv => AnnOut.named kv.1 ((getType kv.2).getD "") kv.2)))
  ∧ (∀ l, annotateOne (.arr l) =
      Except.map (fun r => [AnnOut.nested r]) (annotateParams l)) := by
  refine ⟨?_, ?_, ?_⟩
  · constructor
    · intro heq
      by_cases hc : ((jsKeys (JSVal.obj kvs)).length = 2
        ∧ truthy (jsGet (.obj kvs) "name") = true
        ∧ truthy (jsGet (.obj kvs) "value") = true)
      · exact (annotate_cond_iff kvs hnd).mp hc
      · exfalso
        rw [annotateOne_obj, if_neg hc] at heq
        rcases formatParamsList_shape kvs _ heq (AnnOut.pass (.obj kvs))
          (List.mem_singleton_self _) with ⟨n, t, v, hna⟩
        exact AnnOut.noConfusion hna
    · intro hcl
      have hc := (annotate_cond_iff kvs hnd).mpr hcl
      rw [annotateOne_obj, if_pos hc]
  · intro hncl hsome
    have hnc : ¬ ((jsKeys (JSVal.obj kvs)).length = 2
        ∧ truthy (jsGet (.obj kvs) "name") = true
        ∧ truthy (jsGet (.obj kvs) "value") = true) :=
      fun hc => hncl ((annotate_cond_iff kvs hnd).mp hc)
    rw [annotateOne_obj, if_neg hnc]
    exact formatParamsList_all_some kvs hsome
  · intro l
    cases h : annotateParams l with
    | error e => rw [annotateOne_arr, h]; rfl
    | ok r => rw [annotateOne_arr, h]; rfl

/-- Witness for C6: a two-key `name`/`value` object passes through
unchanged, while an ordinary two-key object is expanded into one named
parameter per key. -/
theorem claim_C6_witness :
    annotateOne (.obj [("name", .str "n"), ("value", .numInt 1)])
      = .ok [.pass (.obj [("name", .str "n"), ("value", .numInt 1)])]
  ∧ annotateOne (.obj [("a", .numInt 1), ("b", .str "x")])
      = .ok [.named "a" "longValue" (.numInt 1), .named "b" "stringValue" (.str "x")] := by
  constructor
  · exact (claim_C6_annotate_entries [("name", .str "n"), ("value", .numInt 1)]
      (by decide)).1.mpr ⟨by decide, rfl, rfl⟩
  · exact (claim_C6_annotate_entries [("a", .numInt 1), ("b", .str "x")]
      (by decide)).2.1 (by decide) (by decide)

end DataApi
